import Mathlib

/-
Verification of the output-assembly and orchestration core of the pdfsuite
repository: the ZIP archive encoder (frontend/service/zipService.ts), the
page-range algebra (lib/splitUtils.ts), the split/merge orchestrators
(frontend/service/pdfMergeService.ts and the merge page handler), the
cancellation helpers (service/processing.ts) and the preview job queue
(frontend/service/pdfPreviewService.ts).

Machine integers from the TypeScript source are modelled as Nat with explicit
reductions modulo powers of two where the source applies bit operations.
Byte buffers are modelled as List Nat with every element below 256 by
construction. Fallible functions return Except.
-/

/-! ## ZIP archive encoder (frontend/service/zipService.ts) -/

/-- Entry of a ZIP archive as accepted by the encoder. The data field is the
raw byte buffer (Uint8Array in the source). -/
structure ZipEntry where
  filename : String
  data : List Nat
deriving Repr, DecidableEq

/-- UTF-8 encoding of one character, as performed by TextEncoder.encode for
well-formed Unicode text. -/
def utf8EncodeChar (c : Char) : List Nat :=
  let n := c.toNat
  if n < 128 then [n]
  else if n < 2048 then [192 + n / 64, 128 + n % 64]
  else if n < 65536 then [224 + n / 4096, 128 + n / 64 % 64, 128 + n % 64]
  else [240 + n / 262144, 128 + n / 4096 % 64, 128 + n / 64 % 64, 128 + n % 64]

/-- Model of textEncoder.encode: the UTF-8 bytes of a string. -/
def encodeUtf8 (s : String) : List Nat :=
  s.data.foldr (fun c acc => utf8EncodeChar c ++ acc) []

/-- Model of writeUint16LE: the two little-endian bytes written for a value.
The source masks with bitwise operations on 32-bit reductions. -/
def u16le (value : Nat) : List Nat :=
  let w := value % 4294967296
  [w % 256, w / 256 % 256]

/-- Model of writeUint32LE: the four little-endian bytes written for a value. -/
def u32le (value : Nat) : List Nat :=
  let w := value % 4294967296
  [w % 256, w / 256 % 256, w / 65536 % 256, w / 16777216 % 256]

/-- Model of one cell of the CRC-32 lookup table crcTable: eight conditional
shift-xor rounds over the reflected polynomial 0xEDB88320. -/
def crcTableEntry (n : Nat) : Nat :=
  (List.range 8).foldl
    (fun c _ => if c % 2 = 1 then Nat.xor 3988292384 (c / 2) else c / 2) n

/-- Model of crc32: table-driven CRC-32 with seed and final xor 0xFFFFFFFF. -/
def crc32 (bytes : List Nat) : Nat :=
  Nat.xor
    (bytes.foldl
      (fun c b => Nat.xor (crcTableEntry (Nat.xor c b % 256)) (c / 256))
      4294967295)
    4294967295

/-- Model of getZipByteLength: 22 bytes for the end-of-central-directory
record plus, per entry, local header and data plus central directory header. -/
def getZipByteLength (entries : List ZipEntry) : Nat :=
  entries.foldl
    (fun totalLength entry =>
      totalLength
        + (30 + (encodeUtf8 entry.filename).length + entry.data.length)
        + (46 + (encodeUtf8 entry.filename).length))
    22

/-- Model of estimateZipSizeBytes: 0 for an empty list, otherwise the
computed byte length. -/
def estimateZipSizeBytes (entries : List ZipEntry) : Nat :=
  if entries.isEmpty then 0 else getZipByteLength entries

/-- Per-entry bookkeeping record built by createZipBlob before writing. -/
structure PreparedEntry where
  filenameBytes : List Nat
  data : List Nat
  crc : Nat
  localHeaderLength : Nat
  centralHeaderLength : Nat
  localOffset : Nat
deriving Repr, DecidableEq

/-- Model of the entries.map step of createZipBlob. -/
def prepareEntry (entry : ZipEntry) : PreparedEntry :=
  let filenameBytes := encodeUtf8 entry.filename
  { filenameBytes := filenameBytes
    data := entry.data
    crc := crc32 entry.data
    localHeaderLength := 30 + filenameBytes.length
    centralHeaderLength := 46 + filenameBytes.length
    localOffset := 0 }

/-- Model of the forEach pass of createZipBlob that assigns each entry the
running local offset. -/
def assignOffsets (off : Nat) : List PreparedEntry → List PreparedEntry
  | [] => []
  | e :: rest =>
    { e with localOffset := off }
      :: assignOffsets (off + e.localHeaderLength + e.data.length) rest

/-- Bytes of the 30-byte local file header written for one entry. -/
def localHeaderBytes (e : PreparedEntry) : List Nat :=
  u32le 67324752 ++ u16le 20 ++ u16le 0 ++ u16le 0 ++ u16le 0 ++ u16le 0
    ++ u32le e.crc ++ u32le e.data.length ++ u32le e.data.length
    ++ u16le e.filenameBytes.length ++ u16le 0

/-- Bytes written for one entry in the local section: header, filename, data. -/
def localChunk (e : PreparedEntry) : List Nat :=
  localHeaderBytes e ++ e.filenameBytes ++ e.data

/-- Bytes of the 46-byte central directory header written for one entry. -/
def centralHeaderBytes (e : PreparedEntry) : List Nat :=
  u32le 33639248 ++ u16le 20 ++ u16le 20 ++ u16le 0 ++ u16le 0 ++ u16le 0
    ++ u16le 0 ++ u32le e.crc ++ u32le e.data.length ++ u32le e.data.length
    ++ u16le e.filenameBytes.length ++ u16le 0 ++ u16le 0 ++ u16le 0
    ++ u16le 0 ++ u32le 0 ++ u32le e.localOffset

/-- Bytes written for one entry in the central directory. -/
def centralChunk (e : PreparedEntry) : List Nat :=
  centralHeaderBytes e ++ e.filenameBytes

/-- Concatenation of the local chunks of all entries, in entry order. -/
def localSectionBytes : List PreparedEntry → List Nat
  | [] => []
  | e :: rest => localChunk e ++ localSectionBytes rest

/-- Concatenation of the central directory chunks of all entries. -/
def centralSectionBytes : List PreparedEntry → List Nat
  | [] => []
  | e :: rest => centralChunk e ++ centralSectionBytes rest

/-- Bytes of the 22-byte end-of-central-directory record. -/
def eocdBytes (entryCount centralDirectoryLength centralDirectoryOffset : Nat) :
    List Nat :=
  u32le 101010256 ++ u16le 0 ++ u16le 0 ++ u16le entryCount
    ++ u16le entryCount ++ u32le centralDirectoryLength
    ++ u32le centralDirectoryOffset ++ u16le 0

/-- Model of createZipBlob: fails on an empty entry list, otherwise returns
the full archive byte buffer (the source wraps the buffer in a Blob whose
byteLength is the buffer length). -/
def createZipBlob (entries : List ZipEntry) : Except String (List Nat) :=
  if entries.isEmpty then .error "Cannot create a ZIP with no files."
  else
    let prepared := assignOffsets 0 (entries.map prepareEntry)
    let localDataLength :=
      (prepared.map (fun e => e.localHeaderLength + e.data.length)).sum
    let centralDirectoryLength :=
      (prepared.map (fun e => e.centralHeaderLength)).sum
    let centralDirectoryOffset := localDataLength
    .ok (localSectionBytes prepared ++ centralSectionBytes prepared
      ++ eocdBytes entries.length centralDirectoryLength centralDirectoryOffset)

/-! ### Length facts about the encoder -/

lemma localChunk_length (e : PreparedEntry) :
    (localChunk e).length = 30 + e.filenameBytes.length + e.data.length := by
  simp [localChunk, localHeaderBytes, u16le, u32le]
  omega

lemma centralChunk_length (e : PreparedEntry) :
    (centralChunk e).length = 46 + e.filenameBytes.length := by
  simp [centralChunk, centralHeaderBytes, u16le, u32le]
  omega

lemma eocdBytes_length (n cdl cdo : Nat) : (eocdBytes n cdl cdo).length = 22 := by
  simp [eocdBytes, u16le, u32le]

lemma localSectionBytes_assignOffsets_length :
    ∀ (off : Nat) (l : List PreparedEntry),
      (localSectionBytes (assignOffsets off l)).length
        = (l.map (fun e => 30 + e.filenameBytes.length + e.data.length)).sum
  | _, [] => rfl
  | off, e :: rest => by
    simp only [assignOffsets, localSectionBytes, List.length_append,
      List.map_cons, List.sum_cons, localChunk_length]
    rw [localSectionBytes_assignOffsets_length]

lemma centralSectionBytes_assignOffsets_length :
    ∀ (off : Nat) (l : List PreparedEntry),
      (centralSectionBytes (assignOffsets off l)).length
        = (l.map (fun e => 46 + e.filenameBytes.length)).sum
  | _, [] => rfl
  | off, e :: rest => by
    simp only [assignOffsets, centralSectionBytes, List.length_append,
      List.map_cons, List.sum_cons, centralChunk_length]
    rw [centralSectionBytes_assignOffsets_length]

lemma getZipByteLength_eq (entries : List ZipEntry) :
    getZipByteLength entries
      = 22 + (entries.map (fun e =>
          30 + (encodeUtf8 e.filename).length + e.data.length
            + 46 + (encodeUtf8 e.filename).length)).sum := by
  suffices h : ∀ (l : List ZipEntry) (acc : Nat),
      l.foldl (fun totalLength entry =>
        totalLength
          + (30 + (encodeUtf8 entry.filename).length + entry.data.length)
          + (46 + (encodeUtf8 entry.filename).length)) acc
        = acc + (l.map (fun e =>
            30 + (encodeUtf8 e.filename).length + e.data.length
              + 46 + (encodeUtf8 e.filename).length)).sum by
    simpa [getZipByteLength] using h entries 22
  intro l
  induction l with
  | nil => simp
  | cons e t ih => intro acc; simp [List.foldl_cons, ih]; omega

lemma zipSum_split (l : List ZipEntry) :
    (l.map (fun e =>
        30 + (encodeUtf8 e.filename).length + e.data.length
          + 46 + (encodeUtf8 e.filename).length)).sum
      = (l.map (fun e =>
          30 + (encodeUtf8 e.filename).length + e.data.length)).sum
        + (l.map (fun e => 46 + (encodeUtf8 e.filename).length)).sum := by
  induction l with
  | nil => rfl
  | cons e t ih => simp [List.map_cons, List.sum_cons, ih]; omega

/-- C1: for every non-empty entry list, createZipBlob succeeds and the byte
length of the produced buffer equals estimateZipSizeBytes, which itself equals
22 plus the sum over entries of local header size, filename bytes, data bytes,
central header size and filename bytes again, computed without building the
archive. -/
theorem zip_estimate_matches_blob_length (entries : List ZipEntry)
    (h : entries ≠ []) :
    ∃ bytes, createZipBlob entries = .ok bytes
      ∧ bytes.length = estimateZipSizeBytes entries
      ∧ estimateZipSizeBytes entries
          = 22 + (entries.map (fun e =>
              30 + (encodeUtf8 e.filename).length + e.data.length
                + 46 + (encodeUtf8 e.filename).length)).sum := by
  have hne : entries.isEmpty = false := by
    cases entries with
    | nil => exact absurd rfl h
    | cons a t => rfl
  simp only [createZipBlob, hne, Bool.false_eq_true, if_false]
  refine ⟨_, rfl, ?_, ?_⟩
  · simp only [List.length_append, eocdBytes_length,
      localSectionBytes_assignOffsets_length,
      centralSectionBytes_assignOffsets_length]
    have hl : ((entries.map prepareEntry).map
        (fun e => 30 + e.filenameBytes.length + e.data.length)).sum
        = (entries.map (fun e =>
            30 + (encodeUtf8 e.filename).length + e.data.length)).sum := by
      rw [List.map_map]; rfl
    have hc : ((entries.map prepareEntry).map
        (fun e => 46 + e.filenameBytes.length)).sum
        = (entries.map (fun e => 46 + (encodeUtf8 e.filename).length)).sum := by
      rw [List.map_map]; rfl
    simp only [estimateZipSizeBytes, hne, Bool.false_eq_true, if_false,
      getZipByteLength_eq, zipSum_split, localSectionBytes_assignOffsets_length,
      centralSectionBytes_assignOffsets_length, hl, hc]
    omega
  · simp only [estimateZipSizeBytes, hne, Bool.false_eq_true, if_false,
      getZipByteLength_eq]

/-- Closed instance of the C1 theorem at a concrete one-entry list. -/
theorem zip_estimate_matches_blob_length_witness :
    ∃ bytes,
      createZipBlob [{ filename := "a.pdf", data := [1, 2, 3] }] = .ok bytes
      ∧ bytes.length
          = estimateZipSizeBytes [{ filename := "a.pdf", data := [1, 2, 3] }]
      ∧ estimateZipSizeBytes [{ filename := "a.pdf", data := [1, 2, 3] }]
          = 22 + ([({ filename := "a.pdf", data := [1, 2, 3] } : ZipEntry)].map
              (fun e => 30 + (encodeUtf8 e.filename).length + e.data.length
                + 46 + (encodeUtf8 e.filename).length)).sum :=
  zip_estimate_matches_blob_length _ (by simp)

/-- Boolean success test for Except values. -/
def exceptIsOk {ε α : Type} : Except ε α → Bool
  | .ok _ => true
  | .error _ => false

/-- C10: on the empty entry list the estimator returns 0 without failing,
while createZipBlob fails with the empty-archive error, so no buffer is
produced whose length the estimate could equal. -/
theorem zip_empty_estimate_diverges_from_blob :
    estimateZipSizeBytes [] = 0
      ∧ createZipBlob [] = .error "Cannot create a ZIP with no files."
      ∧ exceptIsOk (createZipBlob ([] : List ZipEntry)) = false :=
  ⟨rfl, rfl, rfl⟩

/-! ## Range algebra (lib/splitUtils.ts) -/

/-- Model of the JavaScript String.prototype.split with a one-character
separator, over character lists. -/
def splitOnChar (sep : Char) : List Char → List (List Char)
  | [] => [[]]
  | c :: rest =>
    if c = sep then [] :: splitOnChar sep rest
    else
      match splitOnChar sep rest with
      | [] => [[c]]
      | g :: gs => (c :: g) :: gs

/-- Model of the JavaScript String.prototype.trim over character lists. -/
def trimChars (cs : List Char) : List Char :=
  ((cs.dropWhile Char.isWhitespace).reverse.dropWhile Char.isWhitespace).reverse

/-- Model of the JavaScript String.prototype.trim. -/
def jsTrim (s : String) : String := String.mk (trimChars s.data)

/-- Parsed page range: 1-based inclusive bounds. The source field named end
is called stop here because end is a reserved word in Lean. -/
structure PageRange where
  start : Nat
  stop : Nat
deriving Repr, DecidableEq

/-- Numeric value of a digit string, as Number yields on all-digit input. -/
def digitsVal (cs : List Char) : Nat :=
  cs.foldl (fun n c => n * 10 + (c.toNat - 48)) 0

/-- Model of matching a token against the pattern DIGITS or DIGITS - DIGITS
(the anchored regex of the source); yields the start and end values, with a
lone DIGITS token standing for both bounds. -/
def grammarParse (token : String) : Option (Nat × Nat) :=
  match splitOnChar '-' token.data with
  | [d] =>
    if d ≠ [] ∧ d.all Char.isDigit then some (digitsVal d, digitsVal d)
    else none
  | [d1, d2] =>
    if d1 ≠ [] ∧ d1.all Char.isDigit ∧ d2 ≠ [] ∧ d2.all Char.isDigit then
      some (digitsVal d1, digitsVal d2)
    else none
  | _ => none

/-- Error message of parsePageRanges for a token that fails the grammar. -/
def malformedTokenMsg (t : String) : String :=
  "Invalid token \"" ++ t ++ "\". Use formats like 1, 3-5."

/-- Error message of parsePageRanges for a range beyond the page count. -/
def exceedsMsg (t : String) (maxPages : Nat) : String :=
  "Range \"" ++ t ++ "\" exceeds page count (" ++ toString maxPages ++ ")."

/-- Model of the per-token checks of the parsePageRanges loop body, in source
order: grammar match, positive integer bounds, ordered bounds, document
bound. The Number.isInteger test of the source is always true on all-digit
tokens and has no residue in the Nat model. -/
def checkToken (maxPages : Nat) (token : String) : Except String PageRange :=
  match grammarParse token with
  | none => .error (malformedTokenMsg token)
  | some (start, stop) =>
    if start < 1 ∨ stop < 1 then
      .error ("Invalid token \"" ++ token
        ++ "\". Pages must be positive integers.")
    else if stop < start then
      .error ("Invalid token \"" ++ token ++ "\". Range start must be <= end.")
    else if maxPages < stop then .error (exceedsMsg token maxPages)
    else .ok { start := start, stop := stop }

/-- Model of the parsePageRanges loop over the token list: first failing
token aborts with its error, otherwise the ranges accumulate in order. -/
def parseTokens (maxPages : Nat) : List String → Except String (List PageRange)
  | [] => .ok []
  | t :: ts => do
    let r ← checkToken maxPages t
    let rs ← parseTokens maxPages ts
    .ok (r :: rs)

/-- Token list of parsePageRanges: split the trimmed input on commas, trim
each part, and drop empty parts (the filter(Boolean) of the source). -/
def tokensOf (input : String) : List String :=
  (((splitOnChar ',' (jsTrim input).data).map
    (fun cs => String.mk (trimChars cs))).filter (fun t => t != ""))

/-- Model of parsePageRanges. -/
def parsePageRanges (input : String) (maxPages : Nat) :
    Except String (List PageRange) :=
  if jsTrim input = "" then .error "Please provide at least one page or range."
  else if tokensOf input = [] then
    .error "Please provide at least one page or range."
  else parseTokens maxPages (tokensOf input)

/-- Page index sequence of one range: start-1 up to stop-1. -/
def rangePages (r : PageRange) : List Nat :=
  (List.range (r.stop + 1 - r.start)).map (fun k => r.start + k - 1)

/-- Model of expandRangesToPageIndices with its optional de-duplication via
the seen set, kept as a list in insertion order. -/
def expandRangesToPageIndices (ranges : List PageRange) (dedupe : Bool) :
    List Nat :=
  (ranges.foldl (fun acc r =>
    (rangePages r).foldl (fun acc2 index =>
      if dedupe then
        if index ∈ acc2.2 then acc2
        else (acc2.1 ++ [index], acc2.2 ++ [index])
      else (acc2.1 ++ [index], acc2.2)) acc)
    (([], []) : List Nat × List Nat)).1

/-- Fuel-driven model of the buildFixedPageGroups loop; the fuel pageCount
bounds the iteration count because the step size is at least 1. -/
def fixedGroupsAux (pageCount size : Nat) : Nat → Nat → List (List Nat)
  | _, 0 => []
  | start, fuel + 1 =>
    if start < pageCount then
      ((List.range (min (start + size) pageCount - start)).map
        (fun k => start + k))
        :: fixedGroupsAux pageCount size (start + size) fuel
    else []

/-- Model of buildFixedPageGroups: empty when the truncated chunk size is
below 1, otherwise contiguous groups with a short final remainder group. -/
def buildFixedPageGroups (pageCount : Nat) (chunkSize : Int) :
    List (List Nat) :=
  if chunkSize < 1 then []
  else fixedGroupsAux pageCount chunkSize.toNat 0 pageCount

/-- Model of getPdfBaseName: strip one case-insensitive trailing .pdf, trim,
and default to document when empty. -/
def getPdfBaseName (filename : String) : String :=
  let cs := filename.data
  let stripped :=
    if 4 ≤ cs.length
        ∧ (cs.drop (cs.length - 4)).map Char.toLower = ['.', 'p', 'd', 'f']
    then cs.take (cs.length - 4) else cs
  let trimmed := String.mk (trimChars stripped)
  if trimmed = "" then "document" else trimmed

/-! ### Facts about the range parser -/

lemma parseTokens_cons (maxPages : Nat) (t : String) (ts : List String) :
    parseTokens maxPages (t :: ts)
      = (checkToken maxPages t).bind (fun r =>
          (parseTokens maxPages ts).bind (fun rs => .ok (r :: rs))) := rfl

lemma parseTokens_ok_forall2 (maxPages : Nat) :
    ∀ (ts : List String) (rs : List PageRange),
      parseTokens maxPages ts = .ok rs →
      List.Forall₂ (fun t r => checkToken maxPages t = .ok r) ts rs
  | [], rs, h => by
    simp only [parseTokens, Except.ok.injEq] at h
    subst h
    exact List.Forall₂.nil
  | t :: ts, rs, h => by
    rw [parseTokens_cons] at h
    cases h1 : checkToken maxPages t with
    | error e => rw [h1] at h; exact absurd h (by simp [Except.bind])
    | ok r =>
      rw [h1] at h
      simp only [Except.bind] at h
      cases h2 : parseTokens maxPages ts with
      | error e => rw [h2] at h; exact absurd h (by simp)
      | ok rs2 =>
        rw [h2] at h
        simp only [Except.ok.injEq] at h
        subst h
        exact List.Forall₂.cons h1 (parseTokens_ok_forall2 maxPages ts rs2 h2)

lemma checkToken_ok_of_bounds (maxPages : Nat) (t : String) (a b : Nat)
    (hg : grammarParse t = some (a, b)) (h1 : 1 ≤ a) (hab : a ≤ b)
    (hb : b ≤ maxPages) :
    checkToken maxPages t = .ok { start := a, stop := b } := by
  have c1 : ¬(a < 1 ∨ b < 1) := by omega
  have c2 : ¬(b < a) := by omega
  have c3 : ¬(maxPages < b) := by omega
  simp only [checkToken, hg]
  rw [if_neg c1, if_neg c2, if_neg c3]

lemma checkToken_exceeds (maxPages : Nat) (t : String) (a b : Nat)
    (hg : grammarParse t = some (a, b)) (h1 : 1 ≤ a) (hab : a ≤ b)
    (hb : maxPages < b) :
    checkToken maxPages t = .error (exceedsMsg t maxPages) := by
  have c1 : ¬(a < 1 ∨ b < 1) := by omega
  have c2 : ¬(b < a) := by omega
  simp only [checkToken, hg]
  rw [if_neg c1, if_neg c2, if_pos hb]

lemma parseTokens_error_at (maxPages : Nat) (msg : String) :
    ∀ (pre : List String) (t : String) (post : List String),
      (∀ u ∈ pre, ∃ r, checkToken maxPages u = .ok r) →
      checkToken maxPages t = .error msg →
      parseTokens maxPages (pre ++ t :: post) = .error msg
  | [], t, post, _, ht => by
    rw [List.nil_append, parseTokens_cons, ht]; rfl
  | u :: pre, t, post, hpre, ht => by
    obtain ⟨r, hr⟩ := hpre u (List.mem_cons_self u pre)
    have ih := parseTokens_error_at maxPages msg pre t post
      (fun v hv => hpre v (List.mem_cons_of_mem u hv)) ht
    rw [List.cons_append, parseTokens_cons, hr]
    simp only [Except.bind]
    rw [ih]

lemma tokensOf_of_trim_empty (input : String) (h : jsTrim input = "") :
    tokensOf input = [] := by
  unfold tokensOf
  rw [h]
  rfl

lemma parsePageRanges_error_at (input : String) (maxPages : Nat)
    (pre : List String) (t : String) (post : List String) (msg : String)
    (hts : tokensOf input = pre ++ t :: post)
    (hpre : ∀ u ∈ pre, ∃ r, checkToken maxPages u = .ok r)
    (ht : checkToken maxPages t = .error msg) :
    parsePageRanges input maxPages = .error msg := by
  have hnil : tokensOf input ≠ [] := by
    rw [hts]; exact List.append_ne_nil_of_right_ne_nil pre (by simp)
  have htrim : ¬(jsTrim input = "") := fun hh =>
    hnil (tokensOf_of_trim_empty input hh)
  rw [parsePageRanges, if_neg htrim, if_neg hnil, hts]
  exact parseTokens_error_at maxPages msg pre t post hpre ht

/-- C7: when parsePageRanges succeeds, the returned ranges correspond one to
one and in order to the input tokens, with no merging, sorting or
de-duplication; a token whose grammar parse yields bounds a and b with
1 <= a <= b <= maxPages passes the checks as the range with start a and end
b; and when such a token has b above maxPages and every earlier token passes
its checks, the whole parse fails with the exceeds-document error. -/
theorem parsePageRanges_order_and_bounds (input : String) (maxPages : Nat) :
    (∀ ranges, parsePageRanges input maxPages = .ok ranges →
      List.Forall₂ (fun t r => checkToken maxPages t = .ok r)
        (tokensOf input) ranges)
  ∧ (∀ t a b, grammarParse t = some (a, b) → 1 ≤ a → a ≤ b → b ≤ maxPages →
      checkToken maxPages t = .ok { start := a, stop := b })
  ∧ (∀ pre t post a b, tokensOf input = pre ++ t :: post →
      (∀ u ∈ pre, ∃ r, checkToken maxPages u = .ok r) →
      grammarParse t = some (a, b) → 1 ≤ a → a ≤ b → maxPages < b →
      parsePageRanges input maxPages = .error (exceedsMsg t maxPages)) := by
  refine ⟨?_, ?_, ?_⟩
  · intro ranges h
    by_cases htrim : jsTrim input = ""
    · rw [parsePageRanges, if_pos htrim] at h; exact absurd h (by simp)
    · by_cases hnil : tokensOf input = []
      · rw [parsePageRanges, if_neg htrim, if_pos hnil] at h
        exact absurd h (by simp)
      · rw [parsePageRanges, if_neg htrim, if_neg hnil] at h
        exact parseTokens_ok_forall2 maxPages (tokensOf input) ranges h
  · intro t a b hg h1 hab hb
    exact checkToken_ok_of_bounds maxPages t a b hg h1 hab hb
  · intro pre t post a b hts hpre hg h1 hab hb
    exact parsePageRanges_error_at input maxPages pre t post _ hts hpre
      (checkToken_exceeds maxPages t a b hg h1 hab hb)

/-- Closed instance of the C7 theorem: parsing 1-2,4 against 5 pages keeps
both ranges in input order, and 2-9 against 5 pages fails with the
exceeds-document error. -/
theorem parsePageRanges_order_and_bounds_witness :
    List.Forall₂ (fun t r => checkToken 5 t = .ok r) (tokensOf "1-2,4")
      [{ start := 1, stop := 2 }, { start := 4, stop := 4 }]
    ∧ parsePageRanges "2-9" 5 = .error (exceedsMsg "2-9" 5) :=
  ⟨(parsePageRanges_order_and_bounds "1-2,4" 5).1 _ rfl,
   (parsePageRanges_order_and_bounds "2-9" 5).2.2 [] "2-9" [] 2 9 rfl
     (by simp) rfl (by decide) (by decide) (by decide)⟩

/-- C8 counterexample: the input 1,,2 contains an empty token after
splitting and trimming, yet parsePageRanges succeeds, because the source
drops empty tokens with filter(Boolean) instead of failing. -/
theorem parsePageRanges_empty_token_accepted :
    parsePageRanges "1,,2" 5
      = .ok [{ start := 1, stop := 1 }, { start := 2, stop := 2 }]
    ∧ tokensOf "1,,2" = ["1", "2"] := ⟨rfl, rfl⟩

/-- C8 amended: empty tokens are dropped before parsing, and whenever the
retained token list has a token that fails the DIGITS or DIGITS-DIGITS
grammar while all earlier retained tokens pass their checks, parsePageRanges
fails with the malformed-token error for that token. -/
theorem parsePageRanges_malformed_token (input : String) (maxPages : Nat)
    (pre : List String) (t : String) (post : List String)
    (hts : tokensOf input = pre ++ t :: post)
    (hpre : ∀ u ∈ pre, ∃ r, checkToken maxPages u = .ok r)
    (hg : grammarParse t = none) :
    parsePageRanges input maxPages = .error (malformedTokenMsg t) := by
  refine parsePageRanges_error_at input maxPages pre t post _ hts hpre ?_
  simp [checkToken, hg]

/-- Closed instance of the C8 amended theorem at the input 1,x th 3. -/
theorem parsePageRanges_malformed_token_witness :
    parsePageRanges "1,x th 3" 5 = .error (malformedTokenMsg "x th 3") :=
  parsePageRanges_malformed_token "1,x th 3" 5 ["1"] "x th 3" [] rfl
    (by intro u hu
        simp only [List.mem_singleton] at hu
        exact ⟨{ start := 1, stop := 1 }, by rw [hu]; rfl⟩)
    rfl

/-! ## Cancellation helpers (service/processing.ts) -/

/-- Model of a JavaScript Error value: its name and message. All errors
thrown by the modelled code are Error instances. -/
structure JsError where
  name : String
  message : String
deriving Repr, DecidableEq

/-- Model of ProcessingAbortError: an Error whose name is AbortError. -/
def processingAbortError : JsError :=
  { name := "AbortError", message := "Processing was cancelled." }

/-- Model of throwIfAborted over an optional abort signal; the signal is a
constant flag fixed for the whole modelled invocation. -/
def throwIfAborted (signal : Option Bool) : Except JsError Unit :=
  if signal = some true then .error processingAbortError else .ok ()

/-- Model of isAbortError on thrown Error values. -/
def isAbortError (e : JsError) : Bool := e.name == "AbortError"

/-! ## Split and merge orchestrators (frontend/service/pdfMergeService.ts)

The pdf-lib document engine is an external collaborator; a loaded document
is modelled as the list of its page rotation angles, and the saved byte
buffer of a document as that page list. A source File either reads and
loads into a document or fails at one of those two steps. -/

/-- Outcome of reading and loading one input file through the engine. -/
inductive FileData where
  | readErr (msg : String)
  | loadErr (msg : String)
  | pages (rotations : List Int)
deriving Repr, DecidableEq

/-- Model of PdfSourceFile: display name, file content, user rotation. -/
structure PdfSourceFile where
  name : String
  file : FileData
  rotation : Int
deriving Repr, DecidableEq

/-- Split modes of SplitPdfOptions. -/
inductive SplitMode where
  | range
  | extractAll
  | extractSelected
  | fixed
deriving Repr, DecidableEq

/-- Per-file warning as collected by both orchestrators. -/
structure SplitWarning where
  fileName : String
  message : String
deriving Repr, DecidableEq

/-- Model of SplitOutputFile; the saved bytes are abstracted as the page
rotation list of the output document, and the constant mimeType is omitted. -/
structure SplitOutputFile where
  filename : String
  pages : List Int
deriving Repr, DecidableEq

/-- Model of SplitPdfOptions. -/
structure SplitPdfOptions where
  files : List PdfSourceFile
  mode : SplitMode
  rangeInput : String
  selectedPagesInput : String
  fixedChunkSize : Int
  mergeOutputs : Bool
  signal : Option Bool
deriving Repr, DecidableEq

/-- Model of SplitPdfResult. -/
structure SplitPdfResult where
  outputs : List SplitOutputFile
  warnings : List SplitWarning
deriving Repr, DecidableEq

/-- Mutable state of one splitPdfFiles invocation: accumulated warnings and
outputs plus the pages of the shared merged document (empty list when
mergeOutputs is off, since nothing is ever appended then). -/
structure SplitState where
  warnings : List SplitWarning
  outputs : List SplitOutputFile
  mergedPages : List Int
deriving Repr, DecidableEq

/-- Model of PDFDocument.copyPages followed by per-page setRotation: the
pages at the given indices with the user delta composed onto each intrinsic
rotation modulo 360. -/
def copyWithRotation (pages : List Int) (indices : List Nat) (rotation : Int) :
    List Int :=
  indices.filterMap (fun i => (pages.get? i).map (fun r => (r + rotation) % 360))

/-- Model of addPagesWithRotation: append the copied rotated pages to the
target document, doing nothing on an empty index list. -/
def addPagesWithRotation (target : List Int) (sourcePages : List Int)
    (indices : List Nat) (rotation : Int) : List Int :=
  if indices.isEmpty then target
  else target ++ copyWithRotation sourcePages indices rotation

/-- Model of createOutputPdf: a fresh document holding the copied pages. -/
def createOutputPdf (sourcePages : List Int) (indices : List Nat)
    (rotation : Int) : List Int :=
  addPagesWithRotation [] sourcePages indices rotation

/-- Configuration shared by every iteration of the splitPdfFiles loop. -/
structure SplitCfg where
  mode : SplitMode
  rangeInput : String
  selectedPagesInput : String
  fixedChunkSize : Int
  mergeOutputs : Bool
  filesLen : Nat
  signal : Option Bool
deriving Repr, DecidableEq

/-- Warning entry recorded for one file. -/
def withWarning (st : SplitState) (fileName msg : String) : SplitState :=
  { st with warnings := st.warnings ++ [{ fileName := fileName, message := msg }] }

/-- Output filename stem of one file: when more than one source file is
present the 1-based file index is prepended to the base name. -/
def outputStemOf (filesLen fileIndex : Nat) (name : String) : String :=
  if 1 < filesLen then toString (fileIndex + 1) ++ "_" ++ getPdfBaseName name
  else getPdfBaseName name

/-- Model of the try block of one splitPdfFiles loop iteration: read and
load the file, then branch on the mode, accumulating merged pages or
independent outputs. Cooperative cancellation checks appear exactly where
the source calls throwIfAborted; the name and rotation fields of the source
file are passed alongside its content. -/
def splitFileBody (cfg : SplitCfg) (fileIndex : Nat) (name : String)
    (rotation : Int) (st : SplitState) :
    FileData → Except JsError SplitState
  | .readErr m => .error { name := "Error", message := m }
  | .loadErr m => do
    throwIfAborted cfg.signal
    .error { name := "Error", message := m }
  | .pages pages => do
    throwIfAborted cfg.signal
    if pages.length = 0 then
      .ok (withWarning st name "File has no pages and was skipped.")
    else
      match cfg.mode with
      | .range =>
        match parsePageRanges cfg.rangeInput pages.length with
        | .error e => .ok (withWarning st name e)
        | .ok ranges =>
          ranges.foldlM (fun acc r => do
            throwIfAborted cfg.signal
            if cfg.mergeOutputs then
              .ok { acc with mergedPages := addPagesWithRotation acc.mergedPages pages (rangePages r) rotation }
            else
              .ok { acc with outputs := acc.outputs ++ [{
                filename := outputStemOf cfg.filesLen fileIndex name
                  ++ "_pages_" ++ toString r.start ++ "-" ++ toString r.stop
                  ++ ".pdf",
                pages := createOutputPdf pages (rangePages r) rotation }] }) st
      | .fixed =>
        (buildFixedPageGroups pages.length cfg.fixedChunkSize).enum.foldlM
          (fun acc gi => do
            throwIfAborted cfg.signal
            if cfg.mergeOutputs then
              .ok { acc with mergedPages :=
                addPagesWithRotation acc.mergedPages pages gi.2 rotation }
            else
              .ok { acc with outputs := acc.outputs ++ [{
                filename := outputStemOf cfg.filesLen fileIndex name
                  ++ "_part_" ++ toString (gi.1 + 1) ++ ".pdf",
                pages := createOutputPdf pages gi.2 rotation }] }) st
      | .extractAll =>
        (List.range pages.length).foldlM (fun acc pageIndex => do
          throwIfAborted cfg.signal
          if cfg.mergeOutputs then
            .ok { acc with mergedPages :=
              addPagesWithRotation acc.mergedPages pages [pageIndex] rotation }
          else
            .ok { acc with outputs := acc.outputs ++ [{
              filename := outputStemOf cfg.filesLen fileIndex name
                ++ "_page_" ++ toString (pageIndex + 1) ++ ".pdf",
              pages := createOutputPdf pages [pageIndex] rotation }] }) st
      | .extractSelected =>
        match parsePageRanges cfg.selectedPagesInput pages.length with
        | .error e => .ok (withWarning st name e)
        | .ok ranges =>
          if expandRangesToPageIndices ranges true = [] then
            .ok (withWarning st name "No pages selected.")
          else if cfg.mergeOutputs then
            .ok { st with mergedPages := addPagesWithRotation st.mergedPages pages (expandRangesToPageIndices ranges true) rotation }
          else
            (expandRangesToPageIndices ranges true).foldlM (fun acc index => do
              throwIfAborted cfg.signal
              .ok { acc with outputs := acc.outputs ++ [{
                filename := outputStemOf cfg.filesLen fileIndex name
                  ++ "_page_" ++ toString (index + 1) ++ ".pdf",
                pages := createOutputPdf pages [index] rotation }] }) st

/-- Model of one loop iteration with its catch clause: an abort error is
rethrown, any other error is downgraded to a per-file warning. The progress
callback of the finally clause carries no state and is not modelled. -/
def processSplitFile (cfg : SplitCfg) (fileIndex : Nat) (f : PdfSourceFile)
    (st : SplitState) : Except JsError SplitState :=
  match splitFileBody cfg fileIndex f.name f.rotation st f.file with
  | .ok st2 => .ok st2
  | .error e =>
    if isAbortError e then .error e
    else .ok (withWarning st f.name e.message)

/-- Model of the splitPdfFiles for loop over the enumerated files, with the
cooperative cancellation check at the top of each iteration. -/
def splitLoop (cfg : SplitCfg) :
    List (Nat × PdfSourceFile) → SplitState → Except JsError SplitState
  | [], st => .ok st
  | (i, f) :: rest, st => do
    throwIfAborted cfg.signal
    let st2 ← processSplitFile cfg i f st
    splitLoop cfg rest st2

/-- Configuration of a splitPdfFiles invocation. -/
def splitCfgOf (opts : SplitPdfOptions) : SplitCfg :=
  { mode := opts.mode
    rangeInput := opts.rangeInput
    selectedPagesInput := opts.selectedPagesInput
    fixedChunkSize := opts.fixedChunkSize
    mergeOutputs := opts.mergeOutputs
    filesLen := opts.files.length
    signal := opts.signal }

/-- Entry check plus per-file loop of splitPdfFiles. -/
def splitRun (opts : SplitPdfOptions) : Except JsError SplitState := do
  throwIfAborted opts.signal
  splitLoop (splitCfgOf opts) opts.files.enum
    { warnings := [], outputs := [], mergedPages := [] }

/-- Terminal error of splitPdfFiles when nothing was produced. -/
def noOutputsError : JsError :=
  { name := "Error"
    message := "No output files were generated. Check your split settings." }

/-- Model of splitPdfFiles: run the loop, re-check cancellation, emit the
single merged output when merging produced at least one page, and fail when
the output list is empty. -/
def splitPdfFiles (opts : SplitPdfOptions) : Except JsError SplitPdfResult := do
  let st ← splitRun opts
  throwIfAborted opts.signal
  let st2 :=
    if opts.mergeOutputs then
      if 0 < st.mergedPages.length then
        { st with outputs := st.outputs
            ++ [{ filename := "split_output.pdf", pages := st.mergedPages }] }
      else st
    else st
  if st2.outputs = [] then .error noOutputsError
  else .ok { outputs := st2.outputs, warnings := st2.warnings }

/-- Terminal error of mergePdfFiles (and of the inline page handler loop)
when the merged document stays empty. -/
def noPagesMergedError : JsError :=
  { name := "Error"
    message := "No pages could be added to the merged document. Check input files." }

/-- Per-file warning as collected by mergePdfFiles. -/
structure MergeWarning where
  fileName : String
  message : String
deriving Repr, DecidableEq

/-- Model of MergePdfOptions. -/
structure MergePdfOptions where
  files : List PdfSourceFile
  signal : Option Bool
deriving Repr, DecidableEq

/-- Model of MergePdfResult; the saved bytes are abstracted as the merged
page rotation list. -/
structure MergePdfResult where
  bytes : List Int
  warnings : List MergeWarning
deriving Repr, DecidableEq

/-- Mutable state of one mergePdfFiles invocation. -/
structure MergeState where
  warnings : List MergeWarning
  mergedPages : List Int
deriving Repr, DecidableEq

/-- Model of the try block of one mergePdfFiles loop iteration: read, check
cancellation, load, then either warn on an empty file or append every page
with the composed rotation. -/
def mergeFileBody (signal : Option Bool) (f : PdfSourceFile)
    (st : MergeState) : Except JsError MergeState := do
  match f.file with
  | .readErr m => .error { name := "Error", message := m }
  | .loadErr m => do
    throwIfAborted signal
    .error { name := "Error", message := m }
  | .pages pages => do
    throwIfAborted signal
    if pages.length = 0 then
      .ok { st with warnings := st.warnings
        ++ [{ fileName := f.name, message := "File has no pages and was skipped." }] }
    else
      .ok { st with mergedPages := st.mergedPages
        ++ copyWithRotation pages (List.range pages.length) f.rotation }

/-- Model of one mergePdfFiles iteration with its catch clause: abort errors
are rethrown, other errors become per-file warnings. -/
def processMergeFile (signal : Option Bool) (f : PdfSourceFile)
    (st : MergeState) : Except JsError MergeState :=
  match mergeFileBody signal f st with
  | .ok st2 => .ok st2
  | .error e =>
    if isAbortError e then .error e
    else .ok { st with warnings := st.warnings
      ++ [{ fileName := f.name, message := e.message }] }

/-- Model of the mergePdfFiles for loop with its per-iteration check. -/
def mergeLoop (signal : Option Bool) :
    List PdfSourceFile → MergeState → Except JsError MergeState
  | [], st => .ok st
  | f :: rest, st => do
    throwIfAborted signal
    let st2 ← processMergeFile signal f st
    mergeLoop signal rest st2

/-- Model of mergePdfFiles. Note that the source performs no minimum-count
check on the file list. -/
def mergePdfFiles (opts : MergePdfOptions) : Except JsError MergePdfResult := do
  throwIfAborted opts.signal
  let st ← mergeLoop opts.signal opts.files { warnings := [], mergedPages := [] }
  throwIfAborted opts.signal
  if st.mergedPages.length = 0 then .error noPagesMergedError
  else do
    throwIfAborted opts.signal
    .ok { bytes := st.mergedPages, warnings := st.warnings }

/-! ## Merge page handler (frontend/app/merge-pdf/page.tsx) -/

/-- Outcome of the handleMergePdfs click handler: either the too-few-files
guard fires (an error toast, no processing) or the inline merge loop runs. -/
inductive MergeUiOutcome where
  | rejectedTooFew
  | ran (result : Except JsError (List Int))
deriving Repr

/-- Model of the inline merge loop of the page handler: per-file errors are
toasted and skipped, empty files skipped, pages appended with composed
rotation; an empty merged document raises the no-pages error. -/
def pageMergeRun (pdfFiles : List PdfSourceFile) : Except JsError (List Int) :=
  let merged := pdfFiles.foldl (fun acc f =>
    match f.file with
    | .readErr _ => acc
    | .loadErr _ => acc
    | .pages pages =>
      if pages.length = 0 then acc
      else acc ++ copyWithRotation pages (List.range pages.length) f.rotation) []
  if merged.length = 0 then .error noPagesMergedError else .ok merged

/-- Model of handleMergePdfs: fewer than two files trips the guard before
any file is read; otherwise the inline merge runs. -/
def handleMergePdfs (pdfFiles : List PdfSourceFile) : MergeUiOutcome :=
  if pdfFiles.length < 2 then .rejectedTooFew
  else .ran (pageMergeRun pdfFiles)

/-! ### Facts about cancellation and the minimum-file precondition -/

lemma exceptBind_ok {ε α β : Type} (a : α) (g : α → Except ε β) :
    (Except.ok a : Except ε α) >>= g = g a := rfl

lemma exceptBind_error {ε α β : Type} (e : ε) (g : α → Except ε β) :
    (Except.error e : Except ε α) >>= g = .error e := rfl

lemma throwIfAborted_split (signal : Option Bool) :
    throwIfAborted signal = .ok ()
      ∨ throwIfAborted signal = .error processingAbortError := by
  by_cases h : signal = some true <;> simp [throwIfAborted, h]

lemma throwIfAborted_of_aborted (signal : Option Bool) (h : signal = some true) :
    throwIfAborted signal = .error processingAbortError := by
  simp [throwIfAborted, h]

/-- C4: calling splitPdfFiles with an already-cancelled token terminates at
once with the abort error, which isAbortError distinguishes from generic
errors, and no partial output list is returned. -/
theorem splitPdfFiles_pre_aborted (opts : SplitPdfOptions)
    (h : opts.signal = some true) :
    splitPdfFiles opts = .error processingAbortError
      ∧ isAbortError processingAbortError = true := by
  have h1 : splitRun opts = .error processingAbortError := by
    rw [splitRun, throwIfAborted_of_aborted opts.signal h, exceptBind_error]
  exact ⟨by rw [splitPdfFiles, h1, exceptBind_error], rfl⟩

/-- Closed instance of the C4 theorem at a concrete cancelled invocation. -/
theorem splitPdfFiles_pre_aborted_witness :
    splitPdfFiles
      { files := [{ name := "a.pdf", file := .pages [0], rotation := 0 }]
        mode := .range
        rangeInput := "1"
        selectedPagesInput := ""
        fixedChunkSize := 1
        mergeOutputs := false
        signal := some true } = .error processingAbortError
      ∧ isAbortError processingAbortError = true :=
  splitPdfFiles_pre_aborted _ rfl

/-- C6 counterexample: the service function mergePdfFiles accepts a single
source file, loads and processes it, and returns its pages, so a call to
the merge operation with fewer than 2 files is not rejected there. -/
theorem mergePdfFiles_single_file_not_rejected :
    mergePdfFiles
      { files := [{ name := "a.pdf", file := .pages [0], rotation := 0 }]
        signal := none } = .ok { bytes := [0], warnings := [] } := rfl

/-- C6 amended: the minimum-count precondition lives in the page handler,
which rejects fewer than two files before invoking any processing, while
the service-level mergePdfFiles performs no such check and completes on a
single non-empty file. -/
theorem merge_minimum_files_guard :
    (∀ files : List PdfSourceFile, files.length < 2 →
      handleMergePdfs files = MergeUiOutcome.rejectedTooFew)
  ∧ mergePdfFiles
      { files := [{ name := "a.pdf", file := .pages [0], rotation := 0 }]
        signal := none } = .ok { bytes := [0], warnings := [] } := by
  refine ⟨?_, rfl⟩
  intro files h
  simp [handleMergePdfs, h]

/-- Closed instance of the C6 amended theorem at the empty file list. -/
theorem merge_minimum_files_guard_witness :
    handleMergePdfs [] = MergeUiOutcome.rejectedTooFew :=
  merge_minimum_files_guard.1 [] (by decide)

/-- C5 counterexample: a split invocation with mergeOutputs true that runs
to the end without cancellation but appends no page does not return a
zero-output result: it fails with the no-outputs error instead. -/
theorem splitPdfFiles_no_pages_throws :
    splitPdfFiles
      { files := [{ name := "a.pdf", file := .pages [0], rotation := 0 }]
        mode := .extractSelected
        rangeInput := ""
        selectedPagesInput := ""
        fixedChunkSize := 1
        mergeOutputs := true
        signal := none } = .error noOutputsError
    ∧ exceptIsOk (splitPdfFiles
      { files := [{ name := "a.pdf", file := .pages [0], rotation := 0 }]
        mode := .extractSelected
        rangeInput := ""
        selectedPagesInput := ""
        fixedChunkSize := 1
        mergeOutputs := true
        signal := none }) = false := ⟨rfl, rfl⟩

/-! ### With mergeOutputs on, the loop never pushes per-file outputs -/

lemma foldlM_except_preserve {α σ : Type} (P : σ → Prop)
    (f : σ → α → Except JsError σ)
    (hstep : ∀ s a s2, P s → f s a = .ok s2 → P s2) :
    ∀ (l : List α) (s s2 : σ), l.foldlM f s = .ok s2 → P s → P s2
  | [], s, s2, h, hp => by
    cases h
    exact hp
  | a :: l, s, s2, h, hp => by
    have hcons : (a :: l).foldlM f s = f s a >>= fun s1 => l.foldlM f s1 := rfl
    rw [hcons] at h
    cases hf : f s a with
    | error e => rw [hf, exceptBind_error] at h; exact Except.noConfusion h
    | ok s1 =>
      rw [hf, exceptBind_ok] at h
      exact foldlM_except_preserve P f hstep l s1 s2 h (hstep s a s1 hp hf)

lemma withWarning_outputs (st : SplitState) (n m : String) :
    (withWarning st n m).outputs = st.outputs := rfl

lemma splitFileBody_outputs (cfg : SplitCfg) (fileIndex : Nat) (name : String)
    (rotation : Int) (fd : FileData) (hm : cfg.mergeOutputs = true)
    (st st2 : SplitState)
    (h : splitFileBody cfg fileIndex name rotation st fd = .ok st2) :
    st2.outputs = st.outputs := by
  cases fd with
  | readErr m =>
    exact Except.noConfusion h
  | loadErr m =>
    rcases throwIfAborted_split cfg.signal with hta | hta <;>
      simp only [splitFileBody, hta, exceptBind_ok, exceptBind_error] at h <;>
      exact Except.noConfusion h
  | pages pages =>
    rcases throwIfAborted_split cfg.signal with hta | hta
    · simp only [splitFileBody, hta, exceptBind_ok] at h
      by_cases hz : pages.length = 0
      · rw [if_pos hz] at h
        cases h
        exact withWarning_outputs st name _
      · rw [if_neg hz] at h
        cases hmode : cfg.mode with
        | range =>
          rw [hmode] at h
          simp only [] at h
          cases hp : parsePageRanges cfg.rangeInput pages.length with
          | error e =>
            rw [hp] at h
            simp only [] at h
            cases h
            exact withWarning_outputs st name _
          | ok ranges =>
            rw [hp] at h
            simp only [] at h
            refine foldlM_except_preserve (fun s => s.outputs = st.outputs)
              _ ?_ ranges st st2 h rfl
            intro s a s2 hps hsa
            rw [if_pos hm] at hsa
            cases hsa
            exact hps
        | fixed =>
          rw [hmode] at h
          simp only [] at h
          refine foldlM_except_preserve (fun s => s.outputs = st.outputs)
            _ ?_ _ st st2 h rfl
          intro s a s2 hps hsa
          rw [if_pos hm] at hsa
          cases hsa
          exact hps
        | extractAll =>
          rw [hmode] at h
          simp only [] at h
          refine foldlM_except_preserve (fun s => s.outputs = st.outputs)
            _ ?_ _ st st2 h rfl
          intro s a s2 hps hsa
          rw [if_pos hm] at hsa
          cases hsa
          exact hps
        | extractSelected =>
          rw [hmode] at h
          simp only [] at h
          cases hp : parsePageRanges cfg.selectedPagesInput pages.length with
          | error e =>
            rw [hp] at h
            simp only [] at h
            cases h
            exact withWarning_outputs st name _
          | ok ranges =>
            rw [hp] at h
            simp only [] at h
            by_cases hsel : expandRangesToPageIndices ranges true = []
            · rw [if_pos hsel] at h
              cases h
              exact withWarning_outputs st name _
            · rw [if_neg hsel, if_pos hm] at h
              cases h
              rfl
    · simp only [splitFileBody, hta, exceptBind_error] at h
      exact Except.noConfusion h

lemma processSplitFile_outputs (cfg : SplitCfg) (fileIndex : Nat)
    (f : PdfSourceFile) (hm : cfg.mergeOutputs = true) (st st2 : SplitState)
    (h : processSplitFile cfg fileIndex f st = .ok st2) :
    st2.outputs = st.outputs := by
  unfold processSplitFile at h
  cases hb : splitFileBody cfg fileIndex f.name f.rotation st f.file with
  | ok st3 =>
    rw [hb] at h
    have h2 : Except.ok st3 = Except.ok st2 := h
    cases h2
    exact splitFileBody_outputs cfg fileIndex f.name f.rotation f.file hm
      st _ hb
  | error e =>
    rw [hb] at h
    have h2 : (if isAbortError e = true then (Except.error e : Except JsError SplitState)
        else Except.ok (withWarning st f.name e.message)) = Except.ok st2 := h
    cases hae : isAbortError e with
    | true =>
      rw [if_pos hae] at h2
      exact Except.noConfusion h2
    | false =>
      rw [if_neg (by simp [hae])] at h2
      cases h2
      exact withWarning_outputs st f.name e.message

lemma splitLoop_outputs (cfg : SplitCfg) (hm : cfg.mergeOutputs = true) :
    ∀ (l : List (Nat × PdfSourceFile)) (st st2 : SplitState),
      splitLoop cfg l st = .ok st2 → st2.outputs = st.outputs
  | [], st, st2, h => by
    cases h
    rfl
  | (i, f) :: rest, st, st2, h => by
    simp only [splitLoop] at h
    rcases throwIfAborted_split cfg.signal with hta | hta
    · rw [hta, exceptBind_ok] at h
      cases hp : processSplitFile cfg i f st with
      | error e =>
        rw [hp, exceptBind_error] at h
        exact Except.noConfusion h
      | ok st1 =>
        rw [hp, exceptBind_ok] at h
        rw [splitLoop_outputs cfg hm rest st1 st2 h,
          processSplitFile_outputs cfg i f hm st st1 hp]
    · rw [hta, exceptBind_error] at h
      exact Except.noConfusion h

lemma splitRun_ok_signal (opts : SplitPdfOptions) (st : SplitState)
    (h : splitRun opts = .ok st) : throwIfAborted opts.signal = .ok () := by
  rcases throwIfAborted_split opts.signal with hta | hta
  · exact hta
  · rw [splitRun, hta, exceptBind_error] at h
    exact Except.noConfusion h

lemma splitRun_outputs (opts : SplitPdfOptions) (st : SplitState)
    (hm : opts.mergeOutputs = true) (h : splitRun opts = .ok st) :
    st.outputs = [] := by
  rw [splitRun, splitRun_ok_signal opts st h, exceptBind_ok] at h
  exact splitLoop_outputs (splitCfgOf opts) hm opts.files.enum _ st h

/-- C5 amended: with mergeOutputs on, every successful splitPdfFiles call
returns exactly one output named split_output.pdf (possible only because at
least one page was appended), while a run whose loop appends no page to the
shared merged document does not return a zero-output result: it fails with
the no-outputs error. -/
theorem splitPdfFiles_merge_single_output (opts : SplitPdfOptions)
    (hm : opts.mergeOutputs = true) :
    (∀ r, splitPdfFiles opts = .ok r →
      r.outputs.map (fun o => o.filename) = ["split_output.pdf"])
  ∧ (∀ st, splitRun opts = .ok st → st.mergedPages = [] →
      splitPdfFiles opts = .error noOutputsError) := by
  constructor
  · intro r h
    cases hrun : splitRun opts with
    | error e =>
      rw [splitPdfFiles, hrun, exceptBind_error] at h
      exact Except.noConfusion h
    | ok st =>
      have hta := splitRun_ok_signal opts st hrun
      have hout := splitRun_outputs opts st hm hrun
      rw [splitPdfFiles, hrun, exceptBind_ok, hta, exceptBind_ok] at h
      rw [if_pos hm] at h
      by_cases hp : 0 < st.mergedPages.length
      · rw [if_pos hp, hout] at h
        rw [if_neg (show ¬(([] : List SplitOutputFile)
          ++ [{ filename := "split_output.pdf", pages := st.mergedPages }]
            = []) by simp)] at h
        cases h
        rfl
      · rw [if_neg hp, if_pos hout] at h
        exact Except.noConfusion h
  · intro st hrun hmp
    have hta := splitRun_ok_signal opts st hrun
    have hout := splitRun_outputs opts st hm hrun
    rw [splitPdfFiles, hrun, exceptBind_ok, hta, exceptBind_ok, if_pos hm,
      if_neg (show ¬(0 < st.mergedPages.length) by simp [hmp]), if_pos hout]

/-- Closed instance of the C5 amended theorem: a one-file extract-all run
with merging yields the single merged output. -/
theorem splitPdfFiles_merge_single_output_witness :
    ({ outputs := [{ filename := "split_output.pdf", pages := [0] }]
       warnings := [] } : SplitPdfResult).outputs.map (fun o => o.filename)
      = ["split_output.pdf"] :=
  (splitPdfFiles_merge_single_output
    { files := [{ name := "a.pdf", file := .pages [0], rotation := 0 }]
      mode := .extractAll
      rangeInput := ""
      selectedPagesInput := ""
      fixedChunkSize := 1
      mergeOutputs := true
      signal := none } rfl).1 _ rfl

/-! ## Preview job queue (frontend/service/pdfPreviewService.ts)

The module state is the worker handle (alive or not), the isWorkerBusy
flag, the request queue (request identifiers), and two counters tracking
work the environment owes the module: reads counts file.arrayBuffer calls
still pending, rendering counts buffers posted to the worker and not yet
answered. Settlements of request promises are emitted as events. The page
renderer contract (one response per posted render, worker errors raised
while processing a render) guards the worker events; a pending file read
cannot be cancelled, so cleanup leaves the reads counter untouched. -/

/-- Module-level state of the preview service. -/
structure QState where
  workerAlive : Bool
  busy : Bool
  queue : List Nat
  reads : Nat
  rendering : Nat
deriving Repr, DecidableEq

/-- Initial module state: no worker, not busy, empty queue. -/
def qInit : QState :=
  { workerAlive := false, busy := false, queue := [], reads := 0
    rendering := 0 }

/-- Settlement of one preview request promise. -/
inductive Outcome where
  | resolved (url : String)
  | rejected (msg : String)
deriving Repr, DecidableEq

/-- Fallback handle used when a preview cannot be produced. -/
def placeholderUrl : String := "/assets/placeholder-preview.svg"

/-- Events driving the module: a generatePdfPreview call, completion or
failure of the pending file read, a worker response message, an unhandled
worker error, and cleanupPdfPreviewWorker. -/
inductive PEvent where
  | enqueue (id : Nat)
  | readOk
  | readFail
  | workerMsg (success : Bool) (payload : String)
  | workerErr (msg : String)
  | cleanup
deriving Repr, DecidableEq

/-- Model of processQueue: a no-op when busy or the queue is empty,
otherwise mark busy and start reading the head request file. -/
def processQueue (s : QState) : QState :=
  if s.busy || s.queue.isEmpty then s
  else { s with busy := true, reads := s.reads + 1 }

/-- Transition function of the preview module. enqueue models
generatePdfPreview (push, then drain when idle); readOk and readFail model
the arrayBuffer continuations inside processQueue (readOk posts the buffer,
creating the worker when absent; readFail clears busy, shifts and resolves
the head with the placeholder, then drains); workerMsg models
worker.onmessage (clear busy, shift, resolve on success or reject on
failure, then drain); workerErr models worker.onerror (reject the shifted
head, terminate the worker, resolve every remaining request with the
placeholder); cleanup models cleanupPdfPreviewWorker (only when a worker
exists: terminate it and reset flag and queue, settling nothing). -/
def previewStep (s : QState) : PEvent → QState × List (Nat × Outcome)
  | .enqueue id =>
    let s1 := { s with queue := s.queue ++ [id] }
    if s1.busy then (s1, []) else (processQueue s1, [])
  | .readOk =>
    if s.reads = 0 then (s, [])
    else ({ s with reads := s.reads - 1, rendering := s.rendering + 1, workerAlive := true }, [])
  | .readFail =>
    if s.reads = 0 then (s, [])
    else
      match s.queue with
      | [] => (processQueue { s with reads := s.reads - 1, busy := false }, [])
      | h :: t =>
        (processQueue { s with reads := s.reads - 1, busy := false, queue := t },
         [(h, Outcome.resolved placeholderUrl)])
  | .workerMsg success payload =>
    if s.rendering = 0 then (s, [])
    else
      match s.queue with
      | [] => (processQueue { s with rendering := s.rendering - 1, busy := false }, [])
      | h :: t =>
        (processQueue { s with rendering := s.rendering - 1, busy := false, queue := t },
         [(h, if success then Outcome.resolved payload
              else Outcome.rejected (if payload = "" then "Preview worker failed" else payload))])
  | .workerErr msg =>
    if s.rendering = 0 then (s, [])
    else
      match s.queue with
      | [] =>
        ({ s with rendering := 0, busy := false, workerAlive := false, queue := [] }, [])
      | h :: t =>
        ({ s with rendering := 0, busy := false, workerAlive := false, queue := [] },
         (h, Outcome.rejected msg) :: t.map (fun id => (id, Outcome.resolved placeholderUrl)))
  | .cleanup =>
    if s.workerAlive then
      ({ s with workerAlive := false, busy := false, queue := [], rendering := 0 }, [])
    else (s, [])

/-- Run of the module over an event list, collecting every settlement. -/
def previewRun (s : QState) : List PEvent → QState × List (Nat × Outcome)
  | [] => (s, [])
  | e :: es =>
    let r1 := previewStep s e
    let r2 := previewRun r1.1 es
    (r2.1, r1.2 ++ r2.2)

/-! ### Facts about the preview queue -/

/-- C2 counterexample: a request whose render the worker reports as failed
is rejected with the renderer error, not resolved with the fallback
placeholder handle. -/
theorem preview_renderer_failure_rejects :
    (previewRun qInit
      [.enqueue 0, .readOk, .workerMsg false "boom"]).2
      = [(0, Outcome.rejected "boom")] := rfl

/-- C2 amended: on a renderer-reported failure the in-flight request is
rejected with the renderer error (default text when empty); on an unhandled
worker error the in-flight request is rejected with that error, the worker
is discarded and each remaining queued request is resolved with the
placeholder; a failed file read resolves its request with the placeholder.
In every case the busy flag is cleared and draining continues. -/
theorem preview_failure_paths (s : QState) :
    (∀ h t msg, s.rendering = 1 → s.queue = h :: t → msg ≠ "" →
      previewStep s (.workerMsg false msg)
        = (processQueue { s with rendering := 0, busy := false, queue := t },
           [(h, Outcome.rejected msg)]))
  ∧ (∀ h t msg, s.rendering = 1 → s.queue = h :: t →
      previewStep s (.workerErr msg)
        = ({ s with rendering := 0, busy := false, workerAlive := false, queue := [] },
           (h, Outcome.rejected msg)
             :: t.map (fun id => (id, Outcome.resolved placeholderUrl))))
  ∧ (∀ h t, 0 < s.reads → s.queue = h :: t →
      previewStep s .readFail
        = (processQueue { s with reads := s.reads - 1, busy := false, queue := t },
           [(h, Outcome.resolved placeholderUrl)])) := by
  refine ⟨?_, ?_, ?_⟩
  · intro h t msg hr hq hmsg
    simp only [previewStep, hr, hq]
    norm_num
    exact fun hh => absurd hh hmsg
  · intro h t msg hr hq
    simp only [previewStep, hr, hq]
    norm_num
  · intro h t hr hq
    have hz : ¬(s.reads = 0) := by omega
    simp only [previewStep, hq, if_neg hz]

/-- Closed instance of the C2 amended theorem at a concrete busy state. -/
theorem preview_failure_paths_witness :
    previewStep
      { workerAlive := true, busy := true, queue := [5, 7], reads := 0
        rendering := 1 } (.workerMsg false "x")
      = ({ workerAlive := true, busy := true, queue := [7], reads := 1
           rendering := 0 }, [(5, Outcome.rejected "x")]) := by
  have h := (preview_failure_paths
    { workerAlive := true, busy := true, queue := [5, 7], reads := 0
      rendering := 1 }).1 5 [7] "x" rfl rfl (by decide)
  exact h

/-- C3 counterexample: cleanup with a live worker and a queued request
settles nothing: the trace log holds request 0 only, request 1 is dropped
unsettled (never rejected with a cancellation error) and its pending file
read is left running. -/
theorem cleanup_leaves_requests_unsettled :
    (previewRun qInit
      [.enqueue 0, .readOk, .workerMsg true "u", .enqueue 1, .cleanup]).2
      = [(0, Outcome.resolved "u")]
    ∧ (previewRun qInit
      [.enqueue 0, .readOk, .workerMsg true "u", .enqueue 1, .cleanup]).1
      = { workerAlive := false, busy := false, queue := [], reads := 1
          rendering := 0 } := ⟨rfl, rfl⟩

/-- C3 amended: cleanupPdfPreviewWorker with a live worker discards it,
resets the busy flag, clears the queue and abandons the in-flight render,
while settling no pending request (the empty settlement list), and it
cannot cancel a pending file read; with no worker it does nothing at all. -/
theorem cleanupPdfPreviewWorker_behaviour (s : QState) :
    (s.workerAlive = true →
      previewStep s .cleanup
        = ({ s with workerAlive := false, busy := false, queue := [], rendering := 0 }, []))
  ∧ (s.workerAlive = false → previewStep s .cleanup = (s, [])) := by
  constructor
  · intro h
    simp only [previewStep, h, if_true]
  · intro h
    simp only [previewStep, h, Bool.false_eq_true, if_false]

/-- Closed instance of the C3 amended theorem at a concrete state. -/
theorem cleanupPdfPreviewWorker_behaviour_witness :
    previewStep
      { workerAlive := true, busy := true, queue := [4], reads := 1
        rendering := 1 } .cleanup
      = ({ workerAlive := false, busy := false, queue := [], reads := 1
           rendering := 0 }, []) :=
  (cleanupPdfPreviewWorker_behaviour
    { workerAlive := true, busy := true, queue := [4], reads := 1
      rendering := 1 }).1 rfl

/-- C9 counterexample: a cleanup issued while a file read is pending
orphans that read; its later completion posts to a fresh worker, so after
one further enqueue two renders are in flight with the single worker at a
reachable state. -/
theorem preview_two_renders_in_flight :
    (previewRun qInit [.enqueue 0, .readOk, .workerMsg true "u", .enqueue 1,
      .cleanup, .enqueue 2, .readOk, .readOk]).1.rendering = 2 := rfl

/-- Mutual-exclusion invariant of the queue: at most one unit of work is
outstanding (a pending file read or a posted render), and a cleared busy
flag means none at all. -/
def QInv (s : QState) : Prop :=
  s.reads + s.rendering ≤ 1
    ∧ (s.busy = false → s.reads = 0 ∧ s.rendering = 0)

lemma QInv_processQueue (s : QState) (h0 : s.reads = 0)
    (h1 : s.rendering = 0) : QInv (processQueue s) := by
  unfold processQueue
  split
  · exact ⟨by omega, fun _ => ⟨h0, h1⟩⟩
  · refine ⟨by simp [h0, h1], ?_⟩
    intro hb
    simp at hb

lemma previewStep_inv (s : QState) (e : PEvent) (hinv : QInv s)
    (hc : e ≠ PEvent.cleanup) : QInv (previewStep s e).1 := by
  obtain ⟨hle, hidle⟩ := hinv
  cases e with
  | enqueue id =>
    cases hbusy : s.busy with
    | true =>
      simp only [previewStep, hbusy, if_true]
      exact ⟨hle, by intro hb; simp at hb⟩
    | false =>
      obtain ⟨h0, h1⟩ := hidle hbusy
      simp only [previewStep, hbusy, Bool.false_eq_true, if_false]
      exact QInv_processQueue _ h0 h1
  | readOk =>
    by_cases hz : s.reads = 0
    · simp only [previewStep, hz, if_pos rfl]
      exact ⟨hle, hidle⟩
    · have hbusy : s.busy = true := by
        cases hb : s.busy with
        | true => rfl
        | false => exact absurd (hidle hb).1 hz
      simp only [previewStep, if_neg hz]
      refine ⟨?_, ?_⟩
      · simp
        omega
      · intro hb
        simp [hbusy] at hb
  | readFail =>
    by_cases hz : s.reads = 0
    · simp only [previewStep, hz, if_pos rfl]
      exact ⟨hle, hidle⟩
    · simp only [previewStep, if_neg hz]
      cases hq : s.queue with
      | nil =>
        simp
        exact QInv_processQueue _ (by simp; omega) (by simp; omega)
      | cons h t =>
        simp
        exact QInv_processQueue _ (by simp; omega) (by simp; omega)
  | workerMsg b p =>
    by_cases hz : s.rendering = 0
    · simp only [previewStep, hz, if_pos rfl]
      exact ⟨hle, hidle⟩
    · simp only [previewStep, if_neg hz]
      cases hq : s.queue with
      | nil =>
        simp
        exact QInv_processQueue _ (by simp; omega) (by simp; omega)
      | cons h t =>
        simp
        exact QInv_processQueue _ (by simp; omega) (by simp; omega)
  | workerErr m =>
    by_cases hz : s.rendering = 0
    · simp only [previewStep, hz, if_pos rfl]
      exact ⟨hle, hidle⟩
    · simp only [previewStep, if_neg hz]
      cases hq : s.queue with
      | nil =>
        simp
        exact ⟨by simp; omega, fun _ => ⟨by simp; omega, by simp⟩⟩
      | cons h t =>
        simp
        exact ⟨by simp; omega, fun _ => ⟨by simp; omega, by simp⟩⟩
  | cleanup => exact absurd rfl hc

lemma previewRun_inv : ∀ (evs : List PEvent) (s : QState), QInv s →
    (∀ e ∈ evs, e ≠ PEvent.cleanup) → QInv (previewRun s evs).1
  | [], _, hinv, _ => hinv
  | e :: es, s, hinv, hc => by
    simp only [previewRun]
    exact previewRun_inv es (previewStep s e).1
      (previewStep_inv s e hinv (hc e (List.mem_cons_self e es)))
      (fun e2 he2 => hc e2 (List.mem_cons_of_mem e he2))

/-- C9 amended: in every run of the queue that never invokes cleanup, at
most one request is in flight with the single worker (pending read plus
posted render is at most one, and none when idle); processQueue dispatches
nothing while the busy flag is set; and a non-cleanup event clears a set
busy flag only by completing or failing the in-flight work. The cleanup
orphan of the counterexample is the only exception. -/
theorem preview_mutual_exclusion (evs : List PEvent)
    (hc : ∀ e ∈ evs, e ≠ PEvent.cleanup) :
    QInv (previewRun qInit evs).1
  ∧ (∀ s : QState, s.busy = true → processQueue s = s)
  ∧ (∀ (s : QState) (e : PEvent), s.busy = true → e ≠ PEvent.cleanup →
      (previewStep s e).1.busy = false →
      e = PEvent.readFail ∨ (∃ b p, e = PEvent.workerMsg b p)
        ∨ (∃ m, e = PEvent.workerErr m)) := by
  refine ⟨previewRun_inv evs qInit ⟨by decide, fun _ => ⟨rfl, rfl⟩⟩ hc, ?_, ?_⟩
  · intro s h
    simp [processQueue, h]
  · intro s e hb hce hb2
    cases e with
    | enqueue id =>
      exfalso
      simp [previewStep, hb] at hb2
    | readOk =>
      exfalso
      by_cases hz : s.reads = 0 <;> simp [previewStep, hz, hb] at hb2
    | readFail => exact Or.inl rfl
    | workerMsg b p => exact Or.inr (Or.inl ⟨b, p, rfl⟩)
    | workerErr m => exact Or.inr (Or.inr ⟨m, rfl⟩)
    | cleanup => exact absurd rfl hce

/-- Closed instance of the C9 amended theorem on a short cleanup-free run. -/
theorem preview_mutual_exclusion_witness :
    QInv (previewRun qInit [PEvent.enqueue 0, PEvent.readOk]).1 :=
  (preview_mutual_exclusion [PEvent.enqueue 0, PEvent.readOk] (by decide)).1
